import Mathlib

/-!
Shallow embedding of `src/src/common.rs` of nvmd-command (the POSIX build:
`cfg!(unix) = true`, path separator `/`, search-path separator `:`).

External effects (the filesystem, the process environment, `serde_json`,
the spawned `npm config get prefix` child) are modelled by an `Env` record
of oracles; each Rust function of `common.rs` becomes a Lean function of
that record.  A Rust panic (`unwrap` / `expect`) is modelled as the
`Except.error` of a `Panic` value, so a panicking computation is
distinguished from every returned value.
-/

namespace Nvmd

/-- A `serde_json::Value`, as far as `common.rs` inspects one. -/
inductive JValue where
  | null
  | bool (b : Bool)
  | num (n : Int)
  | str (s : String)
  | arr (elems : List JValue)
  | obj (fields : List (String × JValue))

/-- `Value::is_null`. -/
def JValue.isNull : JValue → Bool
  | .null => true
  | _ => false

/-- `Value::is_object`. -/
def JValue.isObject : JValue → Bool
  | .obj _ => true
  | _ => false

/-- `Value::is_string`. -/
def JValue.isString : JValue → Bool
  | .str _ => true
  | _ => false

/-- `Value::as_str`: `Some` exactly on strings. -/
def JValue.asStr : JValue → Option String
  | .str s => some s
  | _ => none

/-- `value["key"]` on a `serde_json::Value`: the field of an object, and
`Null` for a missing field or a non-object. -/
def JValue.index (v : JValue) (k : String) : JValue :=
  match v with
  | .obj fields => (((fields.find? (fun f => f.1 == k)).map (fun f => f.2)).getD .null)
  | _ => .null

/-- A Rust panic: `expect` aborts with its fixed message, `unwrap` on an
`Err`/invalid value aborts carrying the underlying error's rendering. -/
inductive Panic where
  | expectFail (msg : String)
  | unwrapErr (msg : String)
deriving Repr, DecidableEq

/-- The process environment `common.rs` reads, as oracles:
* `home` — `dirs::home_dir()`;
* `cwd` — `env::current_dir()` (`none` = `Err`);
* `readFile` — `fs_extra::file::read_to_string` (`none` = `Err`);
* `parseJson` — `serde_json::from_str::<Value>`;
* `pathExists` — `PathBuf::exists`;
* `isDir` — `PathBuf::is_dir`;
* `pathVar` — `env::var_os("PATH")`;
* `npmStdout` — the spawn of `npm config get prefix`: `none` when the
  child cannot be spawned, otherwise the results of the `lines()` iterator
  over its captured standard output (`Except.error` = an `Err` line read). -/
structure Env where
  home : Option String
  cwd : Option String
  readFile : String → Option String
  parseJson : String → Except String JValue
  pathExists : String → Bool
  isDir : String → Bool
  pathVar : Option String
  npmStdout : Option (List (Except String String))

/-- `PathBuf::push` on POSIX: an absolute component (leading `/`) replaces
the path, otherwise it is appended, with a `/` separator inserted unless
the buffer is empty or already ends in `/`. -/
def pathPush (base comp : String) : String :=
  if comp.data.head? = some '/' then comp
  else if base = "" then comp
  else if base.data.getLast? = some '/' then base ++ comp
  else base ++ "/" ++ comp

/-- `env::split_paths` on POSIX: split the raw variable on `:`. -/
def splitPaths (s : String) : List String :=
  (s.data.splitOn ':').map fun cs => String.mk cs

/-- `env::join_paths` on POSIX: fails iff some entry contains the `:`
separator, otherwise intercalates the entries with `:`. -/
def joinPaths (paths : List String) : Option String :=
  if ∀ p ∈ paths, ':' ∉ p.data then
    some (String.mk (List.intercalate [':'] (paths.map String.data)))
  else none

/-- `default_home_dir` (common.rs:166): `dirs::home_dir()` with `.nvmd`
pushed, or `ErrorKind::NotFound`. -/
def default_home_dir (e : Env) : Except Unit String :=
  match e.home with
  | none => .error ()
  | some home => .ok (pathPush home ".nvmd")

/-- `get_nvmd_path` (common.rs:159): the home-state directory, degrading to
the empty path when the home directory cannot be determined. -/
def get_nvmd_path (e : Env) : String :=
  match default_home_dir e with
  | .ok p => p
  | .error _ => ""

/-- `get_default_installtion_path` (common.rs:127): `<nvmd>/versions`. -/
def get_default_installtion_path (e : Env) : String :=
  pathPush (get_nvmd_path e) "versions"

/-- `get_version` (common.rs:134): the project `.nvmdrc` when readable and
non-empty, else the global `default` file, else the empty string. -/
def get_version (e : Env) : String :=
  let nvmdrc :=
    match e.cwd with
    | none => ""
    | some dir => dir
  let nvmdrc := pathPush nvmdrc ".nvmdrc"
  let project_version :=
    match e.readFile nvmdrc with
    | none => ""
    | some v => v
  if !project_version.isEmpty then
    project_version
  else
    let default_path := pathPush (get_nvmd_path e) "default"
    match e.readFile default_path with
    | none => ""
    | some v => v

/-- `get_installtion_path` (common.rs:99): read `<nvmd>/setting.json`
(read failure = empty content), return the default root on empty content,
`from_str(..).unwrap()` the rest — a panic on invalid JSON — and return the
default root unless the value is an object with a string `directory`,
whose string is returned as the path. -/
def get_installtion_path (e : Env) : Except Panic String :=
  let setting_path := pathPush (get_nvmd_path e) "setting.json"
  let setting_content :=
    match e.readFile setting_path with
    | none => ""
    | some content => content
  if setting_content.isEmpty then
    .ok (get_default_installtion_path e)
  else
    match e.parseJson setting_content with
    | .error msg => .error (.unwrapErr msg)
    | .ok json_obj =>
      if json_obj.isNull || !json_obj.isObject then
        .ok (get_default_installtion_path e)
      else if (json_obj.index "directory").isNull
          || !(json_obj.index "directory").isString then
        .ok (get_default_installtion_path e)
      else
        match (json_obj.index "directory").asStr with
        | some directory => .ok directory
        | none => .error (.unwrapErr "Option::unwrap on None")

/-- `get_bin_path` (common.rs:77): `<installation root>/<version>/bin`
(the `bin` suffix being the `cfg!(unix)` branch). -/
def get_bin_path (e : Env) : Except Panic String := do
  let nvmd_path ← get_installtion_path e
  let nvmd_path := pathPush nvmd_path (get_version e)
  pure (pathPush nvmd_path "bin")

/-- The body of `get_env_path` (common.rs:48) once the mode's candidate
binary directory is chosen: empty on an empty version, empty when the
candidate does not exist, the candidate alone when `PATH` is absent, and
otherwise the candidate prepended to the split `PATH` and re-joined
(empty again when re-joining fails). -/
def get_env_path_with (e : Env) (bin_path_c : Except Panic String) :
    Except Panic String :=
  if (get_version e).isEmpty then
    .ok ""
  else
    match bin_path_c with
    | .error p => .error p
    | .ok bin_path =>
      if !e.pathExists bin_path then
        .ok ""
      else
        match e.pathVar with
        | some path =>
          let paths := splitPaths path
          let paths := bin_path :: paths
          match joinPaths paths with
          | some p => .ok p
          | none => .ok ""
        | none => .ok bin_path

/-- The `for line in lines` loop of `get_npm_prefix` (common.rs:38):
`line.unwrap()` panics on a failed line read; a line that is an existing
directory replaces the accumulator. -/
def npm_lines_loop (e : Env) :
    List (Except String String) → String → Except Panic String
  | [], perfix => .ok perfix
  | line :: rest, perfix =>
    match line with
    | .error msg => .error (.unwrapErr msg)
    | .ok cur_line =>
      npm_lines_loop e rest (if e.isDir cur_line then cur_line else perfix)

/-- `get_npm_prefix` (common.rs:25): force `ENV_PATH` for the child's
environment, spawn `npm config get prefix` (`expect` panics when the spawn
fails), and keep the last stdout line that is an existing directory. -/
def get_npm_prefix (e : Env) : Except Panic String :=
  match get_env_path_with e (get_bin_path e) with
  | .error p => .error p
  | .ok _env_path =>
    match e.npmStdout with
    | none => .error (.expectFail "nvmd-desktop: get npm perfix error")
    | some lines => npm_lines_loop e lines ""

/-- `get_binary_bin_path` (common.rs:88): `<npm prefix>/bin` (the `bin`
suffix being the `cfg!(unix)` branch). -/
def get_binary_bin_path (e : Env) : Except Panic String := do
  let nvmd_path ← get_npm_prefix e
  pure (pathPush nvmd_path "bin")

/-- `get_env_path` (common.rs:48): the `match Some(binary)` selects the
binary-mode or toolchain-mode candidate directory. -/
def get_env_path (e : Env) (binary : Bool) : Except Panic String :=
  get_env_path_with e
    (match some binary with
     | some true => get_binary_bin_path e
     | some false => get_bin_path e
     | none => get_bin_path e)

/-- One read of a `lazy_static` cell (common.rs:15-23): the first access
runs the initializer and stores the value, every later access returns the
stored value; the `Nat` counts initializer runs. -/
def lazyForce (compute : Unit → α) : Option α × Nat → α × (Option α × Nat)
  | (none, k) =>
    let v := compute ()
    (v, (some v, k + 1))
  | (some v, k) => (v, (some v, k))

/-- `n` successive reads of a `lazy_static` cell: the values returned, and
the final cell state. -/
def lazyReads (compute : Unit → α) : Nat → Option α × Nat → List α × (Option α × Nat)
  | 0, st => ([], st)
  | n + 1, st =>
    let (v, st') := lazyForce compute st
    let (vs, st'') := lazyReads compute n st'
    (v :: vs, st'')

/-- A `std::process::ExitStatus`: whether the child succeeded, and its
exit code when one exists. -/
structure ExitStatus where
  success : Bool
  code : Option Int

/-- The `Error` enum of common.rs (lines 172-175): a structured message or
a numeric exit-style code.  `get_npm_prefix` never constructs one — its
spawn failure panics instead (see the C4 theorems). -/
inductive Error where
  | Message (s : String)
  | Code (n : Int)
deriving Repr, DecidableEq

/-- `IntoResult for Result<ExitStatus, String>` (common.rs:181-195):
success maps to `Ok(())`, a failed status to `Error::Code` (defaulting to
1), a spawn-level error string to `Error::Message`. -/
def into_result (r : Except String ExitStatus) : Except Error Unit :=
  match r with
  | .ok status =>
    if status.success then .ok ()
    else .error (.Code (status.code.getD 1))
  | .error err => .error (.Message err)

/-! Concrete environments used to instantiate the theorems below. -/

/-- A bare environment: no home, no cwd, no files, no `PATH`, a failing
JSON parser, no spawnable `npm`. -/
def envNone : Env where
  home := none
  cwd := none
  readFile := fun _ => none
  parseJson := fun _ => .error "EOF while parsing a value at line 1 column 0"
  pathExists := fun _ => false
  isDir := fun _ => false
  pathVar := none
  npmStdout := none

/-- A home of `/home/u` whose `setting.json` holds the invalid JSON
document `{` (written `\x7b`). -/
def envBadJson : Env :=
  { envNone with
    home := some "/home/u"
    readFile := fun p =>
      if p = "/home/u/.nvmd/setting.json" then some "\x7b" else none
    parseJson := fun _ => .error "EOF while parsing an object at line 1 column 1" }

/-- A home of `/home/u` whose `setting.json` parses to an object whose
`directory` field is the string `/opt/nvmd/store`. -/
def envGoodJson : Env :=
  { envNone with
    home := some "/home/u"
    readFile := fun p =>
      if p = "/home/u/.nvmd/setting.json" then
        some "\x7b \"directory\": \"/opt/nvmd/store\" \x7d"
      else none
    parseJson := fun _ => .ok (.obj [("directory", .str "/opt/nvmd/store")]) }

/-- An environment whose `npm` child prints a notice line and then the
existing directory `/usr/local`. -/
def envNpm : Env :=
  { envNone with
    isDir := fun p => p == "/usr/local"
    npmStdout := some [.ok "npm notice", .ok "/usr/local"] }

/-- An environment whose `npm` child's single stdout line fails to read
(for example it is not valid UTF-8). -/
def envLineErr : Env :=
  { envNone with
    npmStdout := some [.error "stream did not contain valid UTF-8"] }

/-- A fully provisioned toolchain environment: home `/home/u`, global
default version `18.16.0`, the version's `bin` directory existing on disk,
and an inherited `PATH` of `/usr/bin:/bin`. -/
def envFull : Env :=
  { envNone with
    home := some "/home/u"
    readFile := fun q =>
      if q = "/home/u/.nvmd/default" then some "18.16.0" else none
    pathExists := fun q => q == "/home/u/.nvmd/versions/18.16.0/bin"
    pathVar := some "/usr/bin:/bin" }

/-! Theorems: the spec's claims checked against the embedding. -/

/-- A non-empty string's `isEmpty` is `false`. -/
theorem isEmpty_false_of_ne (c : String) (hne : c ≠ "") : c.isEmpty = false := by
  cases h : c.isEmpty
  · rfl
  · exact absurd ((String.isEmpty_iff c).mp h) hne

/-- C1 (counterexample): at a malformed settings document that is present,
non-empty and not valid JSON (`{`), resolving the installation root does
not return the default root — it panics on the `from_str(..).unwrap()`. -/
theorem c1_invalid_json_panics :
    get_installtion_path envBadJson =
      .error (.unwrapErr "EOF while parsing an object at line 1 column 1") := rfl

/-- C1 (amended): a missing settings file, an empty one, non-object JSON
(including `null`), or an object without a string `directory` all resolve
to the default root `<nvmd>/versions`; but a present, non-empty settings
document that fails to parse as JSON makes `get_installtion_path` panic
(the `unwrap` on `from_str`) instead of returning the default root. -/
theorem c1_malformed_settings (e : Env) :
    (e.readFile (pathPush (get_nvmd_path e) "setting.json") = none →
      get_installtion_path e = .ok (get_default_installtion_path e))
    ∧ (e.readFile (pathPush (get_nvmd_path e) "setting.json") = some "" →
      get_installtion_path e = .ok (get_default_installtion_path e))
    ∧ (∀ c msg, e.readFile (pathPush (get_nvmd_path e) "setting.json") = some c →
      c ≠ "" → e.parseJson c = .error msg →
      get_installtion_path e = .error (.unwrapErr msg))
    ∧ (∀ c v, e.readFile (pathPush (get_nvmd_path e) "setting.json") = some c →
      c ≠ "" → e.parseJson c = .ok v → (v.isNull || !v.isObject) = true →
      get_installtion_path e = .ok (get_default_installtion_path e))
    ∧ (∀ c v, e.readFile (pathPush (get_nvmd_path e) "setting.json") = some c →
      c ≠ "" → e.parseJson c = .ok v → v.isObject = true →
      ((v.index "directory").isNull || !(v.index "directory").isString) = true →
      get_installtion_path e = .ok (get_default_installtion_path e)) := by
  refine ⟨?_, ?_, ?_, ?_, ?_⟩
  · intro h
    simp only [get_installtion_path, h]
    rfl
  · intro h
    simp only [get_installtion_path, h]
    rfl
  · intro c msg hc hne hp
    simp only [get_installtion_path, hc, isEmpty_false_of_ne c hne,
      Bool.false_eq_true, if_false, hp]
  · intro c v hc hne hp hv
    simp only [get_installtion_path, hc, isEmpty_false_of_ne c hne,
      Bool.false_eq_true, if_false, hp]
    rw [if_pos hv]
  · intro c v hc hne hp hobj hdir
    have hnotnull : v.isNull = false := by
      cases v <;> simp_all [JValue.isNull, JValue.isObject]
    simp only [get_installtion_path, hc, isEmpty_false_of_ne c hne,
      Bool.false_eq_true, if_false, hp]
    rw [if_neg (by simp [hnotnull, hobj]), if_pos hdir]

/-- C7: a well-formed settings document — a JSON object whose `directory`
field is a string — resolves the installation root to exactly that string,
unmodified. -/
theorem c7_directory_returned_verbatim (e : Env) (c s : String)
    (fields : List (String × JValue))
    (hc : e.readFile (pathPush (get_nvmd_path e) "setting.json") = some c)
    (hne : c ≠ "")
    (hp : e.parseJson c = .ok (.obj fields))
    (hd : (JValue.obj fields).index "directory" = .str s) :
    get_installtion_path e = .ok s := by
  simp only [get_installtion_path, hc, isEmpty_false_of_ne c hne,
    Bool.false_eq_true, if_false, hp, hd]
  rw [if_neg (by simp [JValue.isNull, JValue.isObject]),
    if_neg (by simp [hd, JValue.isNull, JValue.isString])]
  simp [hd, JValue.asStr]

/-- C7 (witness): the concrete settings object with `directory` set to
`/opt/nvmd/store` resolves to exactly that path. -/
theorem c7_witness : get_installtion_path envGoodJson = .ok "/opt/nvmd/store" :=
  c7_directory_returned_verbatim envGoodJson
    "\x7b \"directory\": \"/opt/nvmd/store\" \x7d" "/opt/nvmd/store"
    [("directory", .str "/opt/nvmd/store")] rfl (by decide) rfl (by rfl)

/-- C2: the project `.nvmdrc`, when readable with non-empty content, is
returned verbatim whatever the global `default` file holds; otherwise the
global `default` file's content is returned, and the empty string when it
is unreadable too.  The two files are never merged or compared. -/
theorem c2_version_precedence (e : Env) :
    (∀ v, e.readFile (pathPush (e.cwd.getD "") ".nvmdrc") = some v → v ≠ "" →
      get_version e = v)
    ∧ ((e.readFile (pathPush (e.cwd.getD "") ".nvmdrc")).getD "" = "" →
      get_version e =
        (e.readFile (pathPush (get_nvmd_path e) "default")).getD "") := by
  constructor
  · intro v hv hne
    have hemp := isEmpty_false_of_ne v hne
    cases hcwd : e.cwd with
    | none =>
      rw [hcwd, Option.getD_none] at hv
      simp [get_version, hcwd, hv, hemp]
    | some dir =>
      rw [hcwd, Option.getD_some] at hv
      simp [get_version, hcwd, hv, hemp]
  · intro h
    cases hcwd : e.cwd with
    | none =>
      rw [hcwd, Option.getD_none] at h
      cases hrc : e.readFile (pathPush "" ".nvmdrc") with
      | none =>
        simp only [get_version, hcwd, hrc]
        cases e.readFile (pathPush (get_nvmd_path e) "default") <;>
          simp [show ("".isEmpty) = true from rfl]
      | some v =>
        rw [hrc, Option.getD_some] at h
        subst h
        simp only [get_version, hcwd, hrc]
        cases e.readFile (pathPush (get_nvmd_path e) "default") <;>
          simp [show ("".isEmpty) = true from rfl]
    | some dir =>
      rw [hcwd, Option.getD_some] at h
      cases hrc : e.readFile (pathPush dir ".nvmdrc") with
      | none =>
        simp only [get_version, hcwd, hrc]
        cases e.readFile (pathPush (get_nvmd_path e) "default") <;>
          simp [show ("".isEmpty) = true from rfl]
      | some v =>
        rw [hrc, Option.getD_some] at h
        subst h
        simp only [get_version, hcwd, hrc]
        cases e.readFile (pathPush (get_nvmd_path e) "default") <;>
          simp [show ("".isEmpty) = true from rfl]

/-- C5: for both modes, an empty Selected Version, or a candidate binary
directory that does not exist, makes the augmented search path the empty
sentinel, never a partially-built path. -/
theorem c5_empty_sentinel (e : Env) :
    ((get_version e).isEmpty = true →
      get_env_path e false = .ok "" ∧ get_env_path e true = .ok "")
    ∧ (∀ b, get_bin_path e = .ok b → e.pathExists b = false →
      get_env_path e false = .ok "")
    ∧ (∀ b, get_binary_bin_path e = .ok b → e.pathExists b = false →
      get_env_path e true = .ok "") := by
  refine ⟨?_, ?_, ?_⟩
  · intro hv
    constructor <;>
      · show get_env_path_with e _ = .ok ""
        unfold get_env_path_with
        rw [if_pos hv]
  · intro b hb hex
    show get_env_path_with e (get_bin_path e) = .ok ""
    unfold get_env_path_with
    by_cases hv : (get_version e).isEmpty = true
    · rw [if_pos hv]
    · rw [if_neg hv, hb]
      simp [hex]
  · intro b hb hex
    show get_env_path_with e (get_binary_bin_path e) = .ok ""
    unfold get_env_path_with
    by_cases hv : (get_version e).isEmpty = true
    · rw [if_pos hv]
    · rw [if_neg hv, hb]
      simp [hex]

/-- The `for` loop of the npm probe on error-free output computes the last
line accepted by the directory filter, defaulting to the accumulator. -/
theorem npm_lines_loop_ok (e : Env) (ls : List String) :
    ∀ acc, npm_lines_loop e (ls.map Except.ok) acc =
      .ok ((ls.filter e.isDir).getLastD acc) := by
  induction ls with
  | nil => intro acc; rfl
  | cons c rest ih =>
    intro acc
    simp only [List.map_cons, npm_lines_loop]
    by_cases h : e.isDir c = true
    · rw [if_pos h, ih, List.filter_cons, if_pos h, List.getLastD_cons]
    · rw [if_neg h, ih, List.filter_cons, if_neg h]

/-- The `for` loop of the npm probe panics at the first failed line read,
whatever was accumulated before it. -/
theorem npm_lines_loop_err (e : Env) (pre : List String) (msg : String)
    (rest : List (Except String String)) :
    ∀ acc, npm_lines_loop e (pre.map Except.ok ++ .error msg :: rest) acc =
      .error (.unwrapErr msg) := by
  induction pre with
  | nil => intro acc; rfl
  | cons c tail ih =>
    intro acc
    simp only [List.map_cons, List.cons_append, npm_lines_loop]
    exact ih _

/-- C3: with a spawnable child and error-free output lines, the npm prefix
probe returns the last stdout line that is an existing directory, and the
empty path when no line qualifies; earlier non-directory lines never win. -/
theorem c3_last_dir_line (e : Env) (ls : List String)
    (hspawn : e.npmStdout = some (ls.map Except.ok))
    (henv : ∃ s, get_env_path_with e (get_bin_path e) = .ok s) :
    get_npm_prefix e = .ok ((ls.filter e.isDir).getLastD "") := by
  obtain ⟨s, hs⟩ := henv
  unfold get_npm_prefix
  simp only [hs, hspawn]
  exact npm_lines_loop_ok e ls ""

/-- C3 (witness): output `npm notice` then `/usr/local`, where only
`/usr/local` is an existing directory, yields `/usr/local`. -/
theorem c3_witness : get_npm_prefix envNpm = .ok "/usr/local" := by
  have h := c3_last_dir_line envNpm ["npm notice", "/usr/local"] rfl ⟨"", rfl⟩
  rw [show (["npm notice", "/usr/local"].filter envNpm.isDir).getLastD "" =
    "/usr/local" from rfl] at h
  exact h

/-- C4 (counterexample): when the child cannot be spawned, the probe does
not hand any value — error-carrying or empty — back to its caller: the
`expect` panics, aborting with its fixed message. -/
theorem c4_spawn_failure_panics :
    get_npm_prefix envNone =
      .error (.expectFail "nvmd-desktop: get npm perfix error")
    ∧ ∀ p, get_npm_prefix envNone ≠ .ok p := by
  refine ⟨rfl, fun p h => ?_⟩
  rw [show get_npm_prefix envNone =
    .error (.expectFail "nvmd-desktop: get npm perfix error") from rfl] at h
  exact Except.noConfusion h

/-- C4 (amended): a spawn failure makes the probe panic via
`expect("nvmd-desktop: get npm perfix error")` — the process aborts with
that message instead of degrading to an empty path, and no `Error` value
(`Message` or `Code`) is returned to the caller. -/
theorem c4_spawn_failure_amended (e : Env)
    (hspawn : e.npmStdout = none)
    (henv : ∃ s, get_env_path_with e (get_bin_path e) = .ok s) :
    get_npm_prefix e =
      .error (.expectFail "nvmd-desktop: get npm perfix error") := by
  obtain ⟨s, hs⟩ := henv
  unfold get_npm_prefix
  simp only [hs, hspawn]

/-- C4 (witness): the bare environment cannot spawn `npm`, and the probe
panics with the fixed `expect` message there. -/
theorem c4_spawn_failure_witness :
    get_npm_prefix envNone =
      .error (.expectFail "nvmd-desktop: get npm perfix error") :=
  c4_spawn_failure_amended envNone rfl ⟨"", rfl⟩

/-- C9: a failed read of any single stdout line — after any run of
successfully read lines — makes the probe panic on `line.unwrap()`; no
value and no recoverable error is returned. -/
theorem c9_line_unwrap_panics (e : Env) (pre : List String) (msg : String)
    (rest : List (Except String String))
    (hspawn : e.npmStdout = some (pre.map Except.ok ++ .error msg :: rest))
    (henv : ∃ s, get_env_path_with e (get_bin_path e) = .ok s) :
    get_npm_prefix e = .error (.unwrapErr msg) := by
  obtain ⟨s, hs⟩ := henv
  unfold get_npm_prefix
  simp only [hs, hspawn]
  exact npm_lines_loop_err e pre msg rest ""

/-- C9 (witness): a single non-UTF-8 stdout line makes the probe panic
carrying that read error. -/
theorem c9_witness :
    get_npm_prefix envLineErr =
      .error (.unwrapErr "stream did not contain valid UTF-8") :=
  c9_line_unwrap_panics envLineErr [] "stream did not contain valid UTF-8" []
    rfl ⟨"", rfl⟩

/-- C10: when the home directory cannot be determined, nothing errors: the
nvmd path degrades to the empty path, the default installation root to the
relative path `versions`, the installation root resolves to `versions`
(settings being unreadable at the degraded location), and the toolchain
augmented path is still produced as a value. -/
theorem c10_missing_home_degrades (e : Env)
    (hh : e.home = none)
    (hs : e.readFile "setting.json" = none) :
    get_nvmd_path e = "" ∧ get_default_installtion_path e = "versions"
    ∧ get_installtion_path e = .ok "versions"
    ∧ ∃ s, get_env_path e false = .ok s := by
  have h1 : get_nvmd_path e = "" := by
    simp [get_nvmd_path, default_home_dir, hh]
  have h2 : get_default_installtion_path e = "versions" := by
    unfold get_default_installtion_path
    rw [h1]
    rfl
  have h3 : get_installtion_path e = .ok "versions" := by
    simp only [get_installtion_path, h1,
      show pathPush "" "setting.json" = "setting.json" from rfl, hs, h2]
    rfl
  have hbin : get_bin_path e =
      .ok (pathPush (pathPush "versions" (get_version e)) "bin") := by
    unfold get_bin_path
    rw [h3]
    rfl
  refine ⟨h1, h2, h3, ?_⟩
  show ∃ s, get_env_path_with e (get_bin_path e) = .ok s
  unfold get_env_path_with
  by_cases hv : (get_version e).isEmpty = true
  · exact ⟨"", by rw [if_pos hv]⟩
  · rw [if_neg hv, hbin]
    by_cases hex :
        e.pathExists (pathPush (pathPush "versions" (get_version e)) "bin") = true
    · simp only [hex, Bool.not_true, Bool.false_eq_true, if_false]
      cases hp : e.pathVar with
      | none => exact ⟨_, rfl⟩
      | some p =>
        cases hj : joinPaths
            (pathPush (pathPush "versions" (get_version e)) "bin" :: splitPaths p) with
        | none => exact ⟨"", by simp [hj]⟩
        | some q => exact ⟨q, by simp [hj]⟩
    · simp only [Bool.not_eq_true] at hex
      exact ⟨"", by simp [hex]⟩

/-- C10 (witness): the bare environment has no determinable home, and all
four degraded values are produced there. -/
theorem c10_witness :
    get_nvmd_path envNone = "" ∧ get_default_installtion_path envNone = "versions"
    ∧ get_installtion_path envNone = .ok "versions"
    ∧ ∃ s, get_env_path envNone false = .ok s :=
  c10_missing_home_degrades envNone rfl rfl

/-- Splitting undoes joining: when `joinPaths` succeeds on a list of
entries, splitting its result returns exactly those entries. -/
theorem splitPaths_joinPaths (ps : List String) (j : String)
    (hne : ps ≠ []) (hj : joinPaths ps = some j) : splitPaths j = ps := by
  unfold joinPaths at hj
  by_cases hcol : ∀ p ∈ ps, ':' ∉ p.data
  · rw [if_pos hcol] at hj
    injection hj with hj
    subst hj
    unfold splitPaths
    rw [show (String.mk (List.intercalate [':'] (ps.map String.data))).data =
      List.intercalate [':'] (ps.map String.data) from rfl]
    rw [List.splitOn_intercalate (ps.map String.data) ':'
      (by
        intro l hl
        obtain ⟨q, hq, rfl⟩ := List.mem_map.mp hl
        exact hcol q hq)
      (by simpa using hne)]
    rw [List.map_map]
    exact List.map_id'' (fun q => rfl) ps
  · rw [if_neg hcol] at hj
    exact Option.noConfusion hj

/-- C6: with a non-empty version, an existing candidate directory, an
inherited `PATH` present and the re-join succeeding, the toolchain
augmented path is the join of the candidate prepended to the split
inherited `PATH`; splitting the result returns the candidate first and
then exactly the original entries, unchanged and in order. -/
theorem c6_prepend_preserves_entries (e : Env) (root b p j : String)
    (hroot : get_installtion_path e = .ok root)
    (hv : (get_version e).isEmpty = false)
    (hb : b = pathPush (pathPush root (get_version e)) "bin")
    (hex : e.pathExists b = true)
    (hp : e.pathVar = some p)
    (hj : joinPaths (b :: splitPaths p) = some j) :
    get_env_path e false = .ok j ∧ splitPaths j = b :: splitPaths p := by
  subst hb
  have hbin : get_bin_path e =
      .ok (pathPush (pathPush root (get_version e)) "bin") := by
    unfold get_bin_path
    rw [hroot]
    rfl
  refine ⟨?_, splitPaths_joinPaths _ j (by simp) hj⟩
  show get_env_path_with e (get_bin_path e) = .ok j
  unfold get_env_path_with
  rw [if_neg (by simp [hv]), hbin]
  simp only [hex, Bool.not_true, Bool.false_eq_true, if_false, hp, hj]

/-- C6 (witness): version `18.16.0` under root `/home/u/.nvmd/versions`
with `PATH=/usr/bin:/bin` yields that version's `bin` directory prepended,
and splitting the result recovers the three entries in order. -/
theorem c6_witness :
    get_env_path envFull false =
      .ok "/home/u/.nvmd/versions/18.16.0/bin:/usr/bin:/bin"
    ∧ splitPaths "/home/u/.nvmd/versions/18.16.0/bin:/usr/bin:/bin" =
      "/home/u/.nvmd/versions/18.16.0/bin" :: splitPaths "/usr/bin:/bin" :=
  c6_prepend_preserves_entries envFull "/home/u/.nvmd/versions"
    "/home/u/.nvmd/versions/18.16.0/bin" "/usr/bin:/bin"
    "/home/u/.nvmd/versions/18.16.0/bin:/usr/bin:/bin"
    rfl rfl rfl rfl rfl rfl

/-- Reads of an already-initialized `lazy_static` cell return the stored
value and never run the initializer again. -/
theorem lazyReads_stable (f : Unit → α) (v : α) (k : Nat) :
    ∀ n, lazyReads f n (some v, k) = (List.replicate n v, (some v, k)) := by
  intro n
  induction n with
  | zero => rfl
  | succ n ih =>
    simp only [lazyReads, lazyForce, ih, List.replicate]

/-- Any sequence of reads of a fresh `lazy_static` cell yields only the
initializer's value and runs the initializer at most once. -/
theorem lazyReads_spec (f : Unit → α) (n : Nat) :
    (∀ w ∈ (lazyReads f n (none, 0)).1, w = f ())
    ∧ (lazyReads f n (none, 0)).2.2 ≤ 1 := by
  cases n with
  | zero =>
    exact ⟨fun w hw => absurd hw (List.not_mem_nil w), Nat.zero_le 1⟩
  | succ n =>
    simp only [lazyReads, lazyForce, lazyReads_stable]
    constructor
    · intro w hw
      rcases List.mem_cons.mp hw with h | h
      · exact h
      · exact List.eq_of_mem_replicate h
    · exact Nat.le_refl 1

/-- C8: every `lazy_static` value of common.rs — the nvmd path, the
version, the default and configured installation roots, the npm prefix and
both augmented paths — is computed at most once per process run, and any
number of reads within one run all return that one value. -/
theorem c8_resolved_once_and_memoized (e : Env) (n : Nat) :
    ((∀ w ∈ (lazyReads (fun _ => get_nvmd_path e) n (none, 0)).1,
        w = get_nvmd_path e)
      ∧ (lazyReads (fun _ => get_nvmd_path e) n (none, 0)).2.2 ≤ 1)
    ∧ ((∀ w ∈ (lazyReads (fun _ => get_version e) n (none, 0)).1,
        w = get_version e)
      ∧ (lazyReads (fun _ => get_version e) n (none, 0)).2.2 ≤ 1)
    ∧ ((∀ w ∈ (lazyReads (fun _ => get_default_installtion_path e) n (none, 0)).1,
        w = get_default_installtion_path e)
      ∧ (lazyReads (fun _ => get_default_installtion_path e) n (none, 0)).2.2 ≤ 1)
    ∧ ((∀ w ∈ (lazyReads (fun _ => get_installtion_path e) n (none, 0)).1,
        w = get_installtion_path e)
      ∧ (lazyReads (fun _ => get_installtion_path e) n (none, 0)).2.2 ≤ 1)
    ∧ ((∀ w ∈ (lazyReads (fun _ => get_npm_prefix e) n (none, 0)).1,
        w = get_npm_prefix e)
      ∧ (lazyReads (fun _ => get_npm_prefix e) n (none, 0)).2.2 ≤ 1)
    ∧ ((∀ w ∈ (lazyReads (fun _ => get_env_path e false) n (none, 0)).1,
        w = get_env_path e false)
      ∧ (lazyReads (fun _ => get_env_path e false) n (none, 0)).2.2 ≤ 1)
    ∧ ((∀ w ∈ (lazyReads (fun _ => get_env_path e true) n (none, 0)).1,
        w = get_env_path e true)
      ∧ (lazyReads (fun _ => get_env_path e true) n (none, 0)).2.2 ≤ 1) :=
  ⟨lazyReads_spec _ n, lazyReads_spec _ n, lazyReads_spec _ n,
    lazyReads_spec _ n, lazyReads_spec _ n, lazyReads_spec _ n,
    lazyReads_spec _ n⟩

end Nvmd
